import Mathlib

/-!
# web-session-tracer — verification of the operation-routing and classification engine

Shallow embedding of the core of `web-session-tracer` (a Puppeteer-based
browser-session recorder) and proofs of its specified properties.

The embedding follows the TypeScript sources:

* `src/tracer/mutation-level.ts` — the DOM-mutation significance classifier;
* `src/tracer/network-tracker.ts` — the per-tab network correlator with its
  bounded (ring-buffer) pending-request map;
* `src/storage.ts` (`SessionStorage`) — the session-wide event-id allocator and
  the guarded write operations;
* `src/tracer/page-tracer.ts` (`PageTracer`) — the per-tab operation router:
  user-action handling with its settle window, mutation-batch attribution,
  navigation recording, and the stop lifecycle;
* `src/config.ts` — the environment-derived configuration.

JavaScript `Map` iteration order (insertion order, `set` on an existing key
keeps the key's position, lookups never reorder) is modelled by an association
list.  Asynchronous handlers are modelled by their sequence of atomic segments
separated by `await` suspension points; events can only be delivered while a
handler is suspended, matching Node's single-threaded cooperative scheduler.
-/

namespace WST

/-! ## Mutation classifier (`src/tracer/mutation-level.ts`) -/

/-- Attribute names directly tied to visible UI (`VISIBLE_ATTRS` set). -/
def VISIBLE_ATTRS : List String :=
  ["class", "style", "hidden", "disabled", "value", "checked", "selected",
   "open", "src", "href", "alt", "title", "aria-expanded", "aria-selected",
   "aria-checked", "aria-hidden", "aria-label", "aria-disabled", "aria-current"]

/-- Resource-ish node names whose addition/removal is noise (`RESOURCE_NODES`). -/
def RESOURCE_NODES : List String :=
  ["SCRIPT", "LINK", "META", "STYLE", "NOSCRIPT"]

/-- Raw DOM change as received from the injected script (`RawDomChange` in
`src/types.ts`).  `null` fields become `Option.none`. -/
structure RawDomChange where
  mutationType : String
  targetPath : String
  addedNodes : List String
  removedNodes : List String
  attributeName : Option String
  attributeValue : Option String
  oldValue : Option String
  characterData : Option String
deriving DecidableEq, Repr

/-- `isInHead`: the target path is inside the document head.  The source tests
`targetPath.includes('/head[') || targetPath === ''`; `String.includes` is
substring containment, modelled by `List.isInfix` on the character data. -/
def isInHead (targetPath : String) : Bool :=
  decide ("/head[".data <:+: targetPath.data) || targetPath == ""

/-- `isNoiseNodes`: a non-empty node-name list made only of resource nodes or
comment nodes. -/
def isNoiseNodes (nodes : List String) : Bool :=
  decide (nodes.length > 0) &&
    nodes.all (fun n => RESOURCE_NODES.contains n || n == "#comment")

/-- `isTextOnlyNodes`: a non-empty node-name list made only of `#text` nodes. -/
def isTextOnlyNodes (nodes : List String) : Bool :=
  decide (nodes.length > 0) && nodes.all (fun n => n == "#text")

/-- `computeChangeLevel`: significance level (1 noise / 2 minor / 3
significant) of one raw DOM change.  The source's early returns become nested
conditionals, evaluated in the same order. -/
def computeChangeLevel (raw : RawDomChange) : Nat :=
  if isInHead raw.targetPath then 1
  else
    let allNodes := raw.addedNodes ++ raw.removedNodes
    if raw.mutationType == "childList" && decide (allNodes.length > 0) &&
        isNoiseNodes allNodes then 1
    else if raw.mutationType == "attributes" &&
        (match raw.attributeName with
         | some a => VISIBLE_ATTRS.contains a || a.startsWith "aria-"
         | none => false) then 3
    else if raw.mutationType == "childList" && isTextOnlyNodes allNodes then 2
    else if raw.mutationType == "childList" &&
        allNodes.any (fun n =>
          !(RESOURCE_NODES.contains n) && n != "#comment" && n != "#text") then 3
    else 2

example :
    computeChangeLevel
      ⟨"attributes", "/html[1]/body[1]/div[1]", [], [], some "class",
        some "x", none, none⟩ = 3 := by decide

example :
    computeChangeLevel
      ⟨"childList", "/html[1]/body[1]", ["SCRIPT", "#comment"], [], none,
        none, none, none⟩ = 1 := by decide

example :
    computeChangeLevel
      ⟨"childList", "/html[1]/body[1]", [], [], none, none, none, none⟩
      = 2 := by decide

example :
    computeChangeLevel
      ⟨"attributes", "", [], [], some "class", some "x", none, none⟩
      = 1 := by decide

/-! ## Mutation batches (`PageTracer.saveMutation`, `src/tracer/page-tracer.ts`) -/

/-- Converted DOM change (`DomChange` in `src/types.ts`).  The source omits the
optional fields when absent; here absence is `none` / the empty list, and the
attribute fields are only carried over when `attributeName` is non-null,
exactly as `saveMutation` builds them. -/
structure DomChange where
  mutationType : String
  targetPath : String
  addedNodes : List String
  removedNodes : List String
  attributeName : Option String
  attributeValue : Option String
  oldValue : Option String
  characterData : Option String
  level : Nat
deriving DecidableEq, Repr

/-- The conversion `saveMutation` applies to each raw change. -/
def toDomChange (raw : RawDomChange) : DomChange :=
  { mutationType := raw.mutationType
    targetPath := raw.targetPath
    addedNodes := raw.addedNodes
    removedNodes := raw.removedNodes
    attributeName := raw.attributeName
    attributeValue :=
      match raw.attributeName with
      | some _ => raw.attributeValue
      | none => none
    oldValue :=
      match raw.attributeName with
      | some _ => raw.oldValue
      | none => none
    characterData := raw.characterData
    level := computeChangeLevel raw }

/-- One line of `mutations.jsonl` (`OpMutationRecord` in `src/types.ts`); the
wall-clock timestamp is outside the model. -/
structure OpMutationRecord where
  maxLevel : Nat
  changes : List DomChange
deriving DecidableEq, Repr

/-- `PageTracer.saveMutation`: appends a mutation batch to the current
mutation directory.  Returns the directory written to together with the
record, or `none` when the batch is discarded (no current mutation directory,
or an empty change list).  `maxLevel` starts at 1 and folds `Math.max` over
the converted changes' levels, as in the source loop. -/
def saveMutation (currentMutationDir : Option String)
    (rawChanges : List RawDomChange) : Option (String × OpMutationRecord) :=
  match currentMutationDir with
  | none => none
  | some targetDir =>
    if rawChanges.length = 0 then none
    else
      let changes := rawChanges.map toDomChange
      let maxLevel := (changes.map (fun c => c.level)).foldl max 1
      some (targetDir, { maxLevel := maxLevel, changes := changes })

example : saveMutation (some "ops/ev000001-main-click") [] = none := by decide

example :
    (saveMutation (some "d")
      [⟨"characterData", "/html[1]/body[1]/p[1]", [], [], none, none, none,
        some "hi"⟩,
       ⟨"attributes", "/html[1]/body[1]/div[1]", [], [], some "class",
        some "x", none, none⟩]).map (fun r => r.2.maxLevel) = some 3 := by
  decide

/-! ## Network tracker (`src/tracer/network-tracker.ts`)

The pending-request store is a JavaScript `Map<string, PendingRequest>`.  A
JS `Map` iterates in insertion order; `set` on a key already present updates
the value but keeps the key's original position; `get` never reorders;
`delete` removes the entry (a later `set` of the same key re-inserts it at the
end).  The store is modelled as an association list in insertion order. -/

/-- In-flight request info kept in the ring buffer (`PendingRequest`). -/
structure PendingRequest where
  url : String
  frameId : String
deriving DecidableEq, Repr

/-- The pending-request map: entries in insertion order, keys distinct. -/
abbrev PendingMap := List (String × PendingRequest)

/-- JS `Map.get`. -/
def mapGet (buf : PendingMap) (k : String) : Option PendingRequest :=
  (buf.find? (fun p => p.1 == k)).map (fun p => p.2)

/-- JS `Map.set` (update in place when the key exists, else append). -/
def mapSet (buf : PendingMap) (k : String) (v : PendingRequest) : PendingMap :=
  if buf.any (fun p => p.1 == k) then
    buf.map (fun p => if p.1 == k then (k, v) else p)
  else buf ++ [(k, v)]

/-- JS `Map.delete`. -/
def mapDelete (buf : PendingMap) (k : String) : PendingMap :=
  buf.filter (fun p => p.1 != k)

/-- `NetworkTracker.evictIfFull`: when the buffer has reached `bufferSize`
entries, delete the first key in iteration order (the oldest-inserted entry);
the `firstKey !== undefined` guard corresponds to `tail` of the empty list
being the empty list. -/
def evictIfFull (buf : PendingMap) (bufferSize : Nat) : PendingMap :=
  if buf.length ≥ bufferSize then buf.tail else buf

/-- The network frames the tracker listens to, with the fields the handlers
read.  `frameId` is optional in CDP (`event.frameId ?? ''`). -/
inductive NetFrame
  | requestSent (requestId url : String) (frameId : Option String)
  | responseReceived (requestId : String)
  | loadingFinished (requestId : String) (encodedDataLength : Nat)
deriving DecidableEq, Repr

/-- The `network_finished` record built by the `Network.loadingFinished`
handler (eventId / sessionId / timestamp generation is outside the model). -/
structure NetworkFinishedEvent where
  frameUrl : String
  requestId : String
  url : String
  encodedDataLength : Nat
deriving DecidableEq, Repr

/-- The `Network.loadingFinished` handler: look up (and always delete) the
pending entry, then build the finished record, defaulting the URL and frame
fields to the empty string when the lookup missed (`pending?.url ?? ''`,
`pending?.frameId ?? ''`).  Total: it never fails. -/
def onLoadingFinished (buf : PendingMap) (requestId : String)
    (encodedDataLength : Nat) : PendingMap × NetworkFinishedEvent :=
  let pending := mapGet buf requestId
  (mapDelete buf requestId,
   { frameUrl := (pending.map (fun p => p.frameId)).getD ""
     requestId := requestId
     url := (pending.map (fun p => p.url)).getD ""
     encodedDataLength := encodedDataLength })

/-- One frame's effect on the pending map: `requestWillBeSent` evicts if full
then inserts; `responseReceived` does not touch the map; `loadingFinished`
deletes the entry (if present). -/
def stepNet (bufferSize : Nat) (buf : PendingMap) : NetFrame → PendingMap
  | .requestSent rid url fid =>
      mapSet (evictIfFull buf bufferSize) rid ⟨url, fid.getD ""⟩
  | .responseReceived _ => buf
  | .loadingFinished rid _ => (onLoadingFinished buf rid 0).1

/-- The pending map after a sequence of frames, starting from the empty map a
fresh `NetworkTracker` holds. -/
def runNet (bufferSize : Nat) (frames : List NetFrame) : PendingMap :=
  frames.foldl (stepNet bufferSize) []

/-- `src/config.ts`: `NETWORK_BUFFER_SIZE` is parsed with `Number(...)` and
replaced by the default 1000 whenever it is `NaN` or `<= 0` (a non-numeric
string parses to `NaN` and also takes the default branch, modelled by the
same fallback). -/
def configNetworkBufferSize (envValue : Option Int) : Nat :=
  match envValue with
  | none => 1000
  | some raw => if raw ≤ 0 then 1000 else raw.toNat

example : configNetworkBufferSize (some 3) = 3 := by decide

example : configNetworkBufferSize (some (-2)) = 1000 := by decide

example :
    runNet 2
      [.requestSent "r1" "http://a" (some "f1"),
       .requestSent "r2" "http://b" (some "f2"),
       .requestSent "r3" "http://c" none]
      = [("r2", ⟨"http://b", "f2"⟩), ("r3", ⟨"http://c", ""⟩)] := by decide

/-! ## Session storage (`src/storage.ts`, `SessionStorage`) -/

/-- Decimal rendering of a natural number, as JavaScript `String(n)` produces
for the non-negative integer counter: the base-10 digits, most significant
first, and `"0"` for zero. -/
def decRepr (n : Nat) : String :=
  if n = 0 then "0"
  else String.mk ((Nat.digits 10 n).reverse.map Nat.digitChar)

example : decRepr 0 = "0" := by decide

example : decRepr 42 = "42" := by
  norm_num [decRepr]
  decide

/-- JavaScript `String.prototype.padStart(6, '0')`: left-pad with `'0'` up to
length 6 (no-op on strings already that long, since `6 - length = 0` in
truncated subtraction). -/
def padStart6 (s : String) : String :=
  String.mk (List.replicate (6 - s.data.length) '0' ++ s.data)

/-- The identifier `nextEventId` renders for counter value `c`:
`` `${sessionId}-ev${String(c).padStart(6, '0')}` ``. -/
def mkEventId (sessionId : String) (c : Nat) : String :=
  sessionId ++ "-ev" ++ padStart6 (decRepr c)

/-- Mutable state of a `SessionStorage` instance (the readonly `sessionId`
plus the three private fields; `sessionDir` is a derived constant path). -/
structure StorageState where
  sessionId : String
  opCount : Nat
  eventCount : Nat
  initialized : Bool
deriving DecidableEq, Repr

/-- A freshly constructed `SessionStorage`. -/
def StorageState.new (sessionId : String) : StorageState :=
  { sessionId := sessionId, opCount := 0, eventCount := 0, initialized := false }

/-- `SessionStorage.nextEventId`: pre-increment the shared counter, then
render the id from the incremented value.  Synchronous in the source — it
contains no suspension point, so calls from different tabs never interleave. -/
def nextEventId (st : StorageState) : StorageState × String :=
  let c := st.eventCount + 1
  ({ st with eventCount := c }, mkEventId st.sessionId c)

/-- The ids issued by `n` consecutive `nextEventId` calls (in call order),
together with the final state.  Calls from any number of tabs sharing the one
storage instance form one such sequence. -/
def runNextEventIds (st : StorageState) : Nat → StorageState × List String
  | 0 => (st, [])
  | n + 1 =>
    let (st1, id) := nextEventId st
    let (st2, ids) := runNextEventIds st1 n
    (st2, id :: ids)

example :
    (runNextEventIds (StorageState.new "s") 2).2
      = ["s-ev000001", "s-ev000002"] := by
  norm_num [runNextEventIds, nextEventId, mkEventId, padStart6, decRepr,
    StorageState.new]
  decide

/-- The error message `assertInitialized` throws with. -/
def notInitializedMsg : String :=
  "SessionStorage is not initialized. Call initialize() first."

/-- `SessionStorage.assertInitialized`: throws unless `initialize()` has
completed. -/
def assertInitialized (st : StorageState) : Except String Unit :=
  if st.initialized then Except.ok () else Except.error notInitializedMsg

/-- `SessionStorage.initialize`: creates the session directory tree, writes
`metadata.json` (file-system effects are outside the model) and marks the
instance initialized. -/
def StorageState.initializeStorage (st : StorageState) : StorageState :=
  { st with initialized := true }

/-- `SessionStorage.createOpDir`: guarded by `assertInitialized`; creates
`ops/<evPart>-<frameType>-<type>` and increments `opCount`.  The directory
name (including the regex trim of `eventId` to its trailing `evNNNNNN`
token) is returned opaquely as the triple that determines it. -/
def createOpDir (st : StorageState) (eventId frameType type : String) :
    Except String (StorageState × (String × String × String)) := do
  let _ ← assertInitialized st
  pure ({ st with opCount := st.opCount + 1 }, (eventId, frameType, type))

/-- `SessionStorage.writeOpEvent`: guarded by `assertInitialized`; writes
`event.json` into `opDir`. -/
def writeOpEvent (st : StorageState) (opDir : String) : Except String Unit := do
  let _ ← assertInitialized st
  pure ()

/-- `SessionStorage.writeOpSnapshot`: guarded by `assertInitialized`; writes
`snapshot.json` into `opDir`. -/
def writeOpSnapshot (st : StorageState) (opDir : String) :
    Except String Unit := do
  let _ ← assertInitialized st
  pure ()

/-- `SessionStorage.appendOpMutation`: guarded by `assertInitialized`; appends
one line to `mutations.jsonl` in `opDir`. -/
def appendOpMutation (st : StorageState) (opDir : String)
    (record : OpMutationRecord) : Except String Unit := do
  let _ ← assertInitialized st
  pure ()

/-- `SessionStorage.appendOpNetwork`: guarded by `assertInitialized`; appends
one line to `network.jsonl` in `opDir`. -/
def appendOpNetwork (st : StorageState) (opDir : String) :
    Except String Unit := do
  let _ ← assertInitialized st
  pure ()

/-- `SessionStorage.writeOpScreenshot`: guarded by `assertInitialized`; writes
`<phase>.png` into `opDir` and returns the session-relative path. -/
def writeOpScreenshot (st : StorageState) (opDir phase : String) :
    Except String String := do
  let _ ← assertInitialized st
  pure ("ops/" ++ opDir ++ "/" ++ phase ++ ".png")

example :
    createOpDir (StorageState.new "s") "s-ev000001" "main" "click"
      = Except.error notInitializedMsg := rfl

/-! ## Operation router (`PageTracer`, `src/tracer/page-tracer.ts`)

`saveUserAction` is an `async` method: it runs as a sequence of synchronous
segments separated by `await` suspension points, and other events (in
particular mutation batches) can only be delivered while it is suspended.
The method is modelled by its list of steps in source order; each `await*`
step is a suspension point, and `assignDirs` is the synchronous double
assignment `this.currentMutationDir = opDir; this.currentOpDir = opDir`. -/

/-- The user-action kinds the injected script reports. -/
inductive UserAction
  | click
  | keydown
  | inputAction
  | submit
deriving DecidableEq, Repr

/-- `data.action === 'click' || data.action === 'submit'` (`isClickLike`). -/
def isClickLike (a : UserAction) : Bool :=
  a == UserAction.click || a == UserAction.submit

/-- The atomic steps of `PageTracer.saveUserAction`, in source order. -/
inductive UAStep
  | awaitCreateOpDir
  | awaitScreenshotBefore
  | assignDirs
  | awaitSleep
  | awaitScreenshotAfter
  | awaitSnapshot
  | awaitWriteEvent
deriving DecidableEq, Repr

/-- The step sequence `saveUserAction` executes for a given configuration and
action, following the source control flow:
`await createOpDir`; if click-like and screenshots enabled, `await
takeScreenshot('before')`; set `currentMutationDir` and `currentOpDir`; if
click-like, `await sleep(500)` (the settle window); if screenshots enabled,
`await takeScreenshot('after')`; if snapshots enabled, `await
captureSnapshot`; `await writeOpEvent`. -/
def saveUserActionSteps (screenshotEnabled snapshotEnabled : Bool)
    (a : UserAction) : List UAStep :=
  [UAStep.awaitCreateOpDir]
    ++ (if isClickLike a && screenshotEnabled then [UAStep.awaitScreenshotBefore]
        else [])
    ++ [UAStep.assignDirs]
    ++ (if isClickLike a then [UAStep.awaitSleep] else [])
    ++ (if screenshotEnabled then [UAStep.awaitScreenshotAfter] else [])
    ++ (if snapshotEnabled then [UAStep.awaitSnapshot] else [])
    ++ [UAStep.awaitWriteEvent]

/-- The value of `currentMutationDir` after the first `k` steps of a
`saveUserAction` run that started with `currentMutationDir = initDir` and
created the operation directory `opDir`.  A mutation batch delivered while
the handler is suspended at step index `k` (an `await*` step) is attributed
to exactly this directory, because `saveMutation` reads `currentMutationDir`
synchronously. -/
def mutDirDuring (initDir : Option String) (opDir : String)
    (steps : List UAStep) (k : Nat) : Option String :=
  (steps.take k).foldl
    (fun d s => if s == UAStep.assignDirs then some opDir else d) initDir

example :
    saveUserActionSteps false false UserAction.click
      = [UAStep.awaitCreateOpDir, UAStep.assignDirs, UAStep.awaitSleep,
         UAStep.awaitWriteEvent] := by decide

example :
    saveUserActionSteps false false UserAction.keydown
      = [UAStep.awaitCreateOpDir, UAStep.assignDirs, UAStep.awaitWriteEvent] :=
  by decide

/-! ### Navigation (`PageTracer.recordNavigation` / `handleNavigation`) -/

/-- Frame kind of a navigation (`frame === this.page.mainFrame()`). -/
inductive FrameType
  | main
  | iframe
deriving DecidableEq, Repr

/-- The per-tab attribution state of a `PageTracer`. -/
structure RouterState where
  currentOpDir : Option String
  currentMutationDir : Option String
deriving DecidableEq, Repr

/-- Result of `recordNavigation`: the updated attribution state and the
operation directory that was created (`createOpDir` runs unconditionally, so
a navigation always creates a new operation and writes its `event.json`). -/
structure NavResult where
  state : RouterState
  createdOpDir : String
deriving DecidableEq, Repr

/-- `PageTracer.recordNavigation`: create the operation directory and write
the navigation event for any frame; only for the main frame, capture the
snapshot baseline and redirect `currentOpDir` and `currentMutationDir` to the
new operation. -/
def recordNavigation (st : RouterState) (opDir : String)
    (frameType : FrameType) : NavResult :=
  if frameType == FrameType.main then
    { state := { currentOpDir := some opDir, currentMutationDir := some opDir }
      createdOpDir := opDir }
  else
    { state := st, createdOpDir := opDir }

example :
    (recordNavigation ⟨none, none⟩ "ops/ev000001-main-navigation"
        FrameType.main).state.currentMutationDir
      = some "ops/ev000001-main-navigation" := by decide

/-! ### Tab lifecycle (`PageTracer.stop` and the event entry points)

`stop()` sets `this.stopped = true` synchronously and then awaits
`cdpSession.detach()`.  The guard `if (this.stopped) return` exists in
`handleInjectedEvent` and `handleNavigation` only; the CDP network listeners
registered by `NetworkTracker.setup` have no such guard and stop firing only
because detaching the CDP session removes their event source.  The lifecycle
is therefore modelled with two flags: `stopped` (set when `stop()` is
called) and `cdpAttached` (cleared when the detach completes); a network
frame can be delivered only while `cdpAttached = true`. -/

/-- Full per-tab state: router fields, lifecycle flags, pending-request map,
and the count of operation directories this tab has created. -/
structure TabState where
  stopped : Bool
  cdpAttached : Bool
  currentOpDir : Option String
  currentMutationDir : Option String
  pending : PendingMap
  opCount : Nat
deriving DecidableEq, Repr

/-- Records written to the durable sink, keyed by the operation directory
they are written into. -/
inductive Record
  | userAction (opDir : String)
  | mutation (opDir : String)
  | navigation (opDir : String)
  | network (opDir : String)
deriving DecidableEq, Repr

/-- Events a tab can receive after `start()`. -/
inductive TabEvent
  | injectedUserAction (a : UserAction) (opDir : String)
  | injectedMutation (rawChanges : List RawDomChange)
  | navigation (frameType : FrameType) (opDir : String)
  | networkFrame (f : NetFrame)
deriving DecidableEq, Repr

/-- The synchronous start of `PageTracer.stop`: `this.stopped = true`.  The
`await cdpSession.detach()` that follows is a suspension point; events can
still be delivered until the detach completes. -/
def stopBegin (st : TabState) : TabState :=
  { st with stopped := true }

/-- Completion of the detach inside `PageTracer.stop`: the CDP session is
gone, so its network listeners can never fire again. -/
def stopFinish (st : TabState) : TabState :=
  { st with cdpAttached := false }

/-- `PageTracer.stop` run to completion. -/
def stop (st : TabState) : TabState :=
  stopFinish (stopBegin st)

/-- Dispatch of one *freshly delivered* event to a tab with no handler in
flight, each accepted handler run to completion without interleaving
(`bufferSize` is the network ring-buffer capacity).  The user-action
branch's record is the `writeOpEvent` at the end of an uninterrupted
`saveUserAction`; a `saveUserAction` interleaved with other work — in
particular one still suspended at one of its `await`s when `stop()` runs —
is modelled step-by-step by `resumeUA` / `runRemainingUA` below, which,
faithfully to the source, re-check `stopped` nowhere after the handler's
entry.  Network frames are delivered only while the CDP session is attached;
their handlers themselves never consult `stopped`, and `appendToCurrentOp`
drops the record only when `currentOpDir` is null. -/
def handleTabEvent (bufferSize : Nat) (st : TabState) (ev : TabEvent) :
    TabState × List Record :=
  match ev with
  | .injectedUserAction _ opDir =>
      if st.stopped then (st, [])
      else
        ({ st with currentOpDir := some opDir,
                   currentMutationDir := some opDir,
                   opCount := st.opCount + 1 },
         [Record.userAction opDir])
  | .injectedMutation rawChanges =>
      if st.stopped then (st, [])
      else
        match saveMutation st.currentMutationDir rawChanges with
        | none => (st, [])
        | some (d, _) => (st, [Record.mutation d])
  | .navigation frameType opDir =>
      if st.stopped then (st, [])
      else
        let res := recordNavigation ⟨st.currentOpDir, st.currentMutationDir⟩
          opDir frameType
        ({ st with currentOpDir := res.state.currentOpDir,
                   currentMutationDir := res.state.currentMutationDir,
                   opCount := st.opCount + 1 },
         [Record.navigation opDir])
  | .networkFrame f =>
      if st.cdpAttached then
        let st1 := { st with pending := stepNet bufferSize st.pending f }
        match st.currentOpDir with
        | some d => (st1, [Record.network d])
        | none => (st1, [])
      else (st, [])

/-- One resumption step of a `saveUserAction` handler already in flight.
After the entry check in `handleInjectedEvent`, `saveUserAction` never
consults `stopped` again: the directory-creation step completes the
operation directory of the already-accepted trigger (`opCount++` happens
after the `await fs.mkdir` resolves), `assignDirs` overwrites both
attribution fields, and the final step unconditionally writes the
user-action record (`event.json`) via `writeOpEvent` — also when the tab has
been stopped in the meantime.  The screenshot and snapshot steps write none
of the four record kinds (`takeScreenshot` swallows its errors and
`captureSnapshot` returns early once the CDP session is detached), so they
produce no `Record`. -/
def resumeUA (st : TabState) (opDir : String) :
    UAStep → TabState × List Record
  | UAStep.awaitCreateOpDir => ({ st with opCount := st.opCount + 1 }, [])
  | UAStep.assignDirs =>
      ({ st with currentOpDir := some opDir,
                 currentMutationDir := some opDir }, [])
  | UAStep.awaitWriteEvent => (st, [Record.userAction opDir])
  | _ => (st, [])

/-- Run a suspended `saveUserAction` handler to completion from its
remaining steps.  The settle sleep is not cancellable and no later segment
re-checks `stopped`, so once entered the handler always executes every
remaining step, whatever `stopped` and `cdpAttached` say at resume time. -/
def runRemainingUA (st : TabState) (opDir : String) :
    List UAStep → TabState × List Record
  | [] => (st, [])
  | s :: rest =>
    let p1 := resumeUA st opDir s
    let p2 := runRemainingUA p1.1 opDir rest
    (p2.1, p1.2 ++ p2.2)

/-! ## Helper lemmas -/

theorem computeChangeLevel_pos (raw : RawDomChange) :
    1 ≤ computeChangeLevel raw := by
  unfold computeChangeLevel
  dsimp only
  repeat' split
  all_goals omega

theorem computeChangeLevel_le_three (raw : RawDomChange) :
    computeChangeLevel raw ≤ 3 := by
  unfold computeChangeLevel
  dsimp only
  repeat' split
  all_goals omega

theorem foldl_max_init_le (l : List Nat) (init : Nat) :
    init ≤ l.foldl max init := by
  induction l generalizing init with
  | nil => exact Nat.le_refl init
  | cons x xs ih =>
    exact Nat.le_trans (Nat.le_max_left init x) (ih (max init x))

theorem foldl_max_le_of_mem (l : List Nat) (init : Nat) :
    ∀ x ∈ l, x ≤ l.foldl max init := by
  induction l generalizing init with
  | nil => intro x hx; cases hx
  | cons y ys ih =>
    intro x hx
    rcases List.mem_cons.mp hx with h | h
    · subst h
      exact Nat.le_trans (Nat.le_max_right init x) (foldl_max_init_le ys _)
    · exact ih (max init y) x h

theorem foldl_max_mem_or_init (l : List Nat) (init : Nat) :
    l.foldl max init ∈ l ∨ l.foldl max init = init := by
  induction l generalizing init with
  | nil => exact Or.inr rfl
  | cons y ys ih =>
    rcases ih (max init y) with h | h
    · exact Or.inl (List.mem_cons_of_mem y h)
    · rcases max_choice init y with hm | hm
      · exact Or.inr (by simpa [hm] using h)
      · refine Or.inl ?_
        rw [List.foldl_cons, h, hm]
        exact List.mem_cons_self y ys

theorem foldl_max_mem (l : List Nat) (init : Nat) (hne : l ≠ [])
    (hge : ∀ x ∈ l, init ≤ x) : l.foldl max init ∈ l := by
  rcases foldl_max_mem_or_init l init with h | h
  · exact h
  · obtain ⟨y, ys, rfl⟩ := List.exists_cons_of_ne_nil hne
    have h1 : y ≤ (y :: ys).foldl max init :=
      foldl_max_le_of_mem _ _ y (List.mem_cons_self y ys)
    have h2 : init ≤ y := hge y (List.mem_cons_self y ys)
    rw [h] at h1
    have hy : y = init := Nat.le_antisymm h1 h2
    rw [h, ← hy]
    exact List.mem_cons_self y ys

theorem foldl_max_le (l : List Nat) :
    ∀ init m : Nat, init ≤ m → (∀ x ∈ l, x ≤ m) → l.foldl max init ≤ m := by
  induction l with
  | nil =>
    intro init m h0 _
    exact h0
  | cons y ys ih =>
    intro init m h0 h
    exact ih _ m (Nat.max_le.mpr ⟨h0, h y (List.mem_cons_self y ys)⟩)
      (fun x hx => h x (List.mem_cons_of_mem y hx))

theorem digitChar_inj_lt :
    ∀ a, a < 10 → ∀ b, b < 10 → Nat.digitChar a = Nat.digitChar b →
      a = b := by decide

theorem digitChar_ne_zero_char :
    ∀ d, d < 10 → d ≠ 0 → Nat.digitChar d ≠ '0' := by decide

theorem map_digitChar_inj :
    ∀ l1 l2 : List Nat, (∀ d ∈ l1, d < 10) → (∀ d ∈ l2, d < 10) →
      l1.map Nat.digitChar = l2.map Nat.digitChar → l1 = l2 := by
  intro l1
  induction l1 with
  | nil =>
    intro l2 _ _ h
    cases l2 with
    | nil => rfl
    | cons e l2 => simp at h
  | cons d l1 ih =>
    intro l2 h1 h2 h
    cases l2 with
    | nil => simp at h
    | cons e l2 =>
      simp only [List.map_cons, List.cons.injEq] at h
      have hde : d = e :=
        digitChar_inj_lt d (h1 d (List.mem_cons_self d l1)) e
          (h2 e (List.mem_cons_self e l2)) h.1
      have htl : l1 = l2 :=
        ih l2 (fun x hx => h1 x (List.mem_cons_of_mem d hx))
          (fun x hx => h2 x (List.mem_cons_of_mem e hx)) h.2
      rw [hde, htl]

theorem dropWhile_zeros_append (l : List Char) (k : Nat) :
    List.dropWhile (fun c => c == '0') (List.replicate k '0' ++ l)
      = List.dropWhile (fun c => c == '0') l := by
  induction k with
  | zero => simp
  | succ k ih => simpa [List.replicate_succ, List.dropWhile_cons] using ih

theorem decRepr_data (n : Nat) (h : n ≠ 0) :
    (decRepr n).data = (Nat.digits 10 n).reverse.map Nat.digitChar := by
  simp [decRepr, h]

theorem decRepr_head_ne_zero (n : Nat) (h : n ≠ 0) :
    ∃ c cs, (decRepr n).data = c :: cs ∧ (c == '0') = false := by
  have hne : Nat.digits 10 n ≠ [] := Nat.digits_ne_nil_iff_ne_zero.mpr h
  have hrev : (Nat.digits 10 n).reverse ≠ [] := by simpa using hne
  obtain ⟨c0, cs0, hcs⟩ := List.exists_cons_of_ne_nil hrev
  have hc0mem : c0 ∈ Nat.digits 10 n := by
    have : c0 ∈ (Nat.digits 10 n).reverse := by
      rw [hcs]
      exact List.mem_cons_self c0 cs0
    simpa using this
  have hlt : c0 < 10 := Nat.digits_lt_base (by norm_num) hc0mem
  have hlast : (Nat.digits 10 n).getLast? = some c0 := by
    rw [← List.head?_reverse, hcs]
    rfl
  have hlast2 : (Nat.digits 10 n).getLast hne = c0 := by
    have := List.getLast?_eq_getLast (Nat.digits 10 n) hne
    rw [hlast] at this
    exact (Option.some_inj.mp this).symm
  have hc0 : c0 ≠ 0 := hlast2 ▸ Nat.getLast_digit_ne_zero 10 h
  refine ⟨Nat.digitChar c0, cs0.map Nat.digitChar, ?_, ?_⟩
  · rw [decRepr_data n h, hcs]
    rfl
  · simpa using digitChar_ne_zero_char c0 hlt hc0

theorem padStart6_inj (s t : String)
    (hs : ∃ c cs, s.data = c :: cs ∧ (c == '0') = false)
    (ht : ∃ d ds, t.data = d :: ds ∧ (d == '0') = false)
    (h : padStart6 s = padStart6 t) : s = t := by
  obtain ⟨c, cs, hs1, hs2⟩ := hs
  obtain ⟨d, ds, ht1, ht2⟩ := ht
  have hdata : List.replicate (6 - s.data.length) '0' ++ s.data
      = List.replicate (6 - t.data.length) '0' ++ t.data :=
    congrArg String.data h
  have h2 := congrArg (List.dropWhile (fun c => c == '0')) hdata
  rw [dropWhile_zeros_append, dropWhile_zeros_append, hs1, ht1,
    List.dropWhile_cons, List.dropWhile_cons, hs2, ht2] at h2
  simp only [Bool.false_eq_true, if_false] at h2
  apply String.ext
  rw [hs1, ht1, h2]

theorem decRepr_inj (a b : Nat) (ha : a ≠ 0) (hb : b ≠ 0)
    (h : decRepr a = decRepr b) : a = b := by
  have h1 := congrArg String.data h
  rw [decRepr_data a ha, decRepr_data b hb] at h1
  have h2 := map_digitChar_inj _ _
    (fun d hd => Nat.digits_lt_base (by norm_num) (List.mem_reverse.mp hd))
    (fun d hd => Nat.digits_lt_base (by norm_num) (List.mem_reverse.mp hd))
    h1
  have h3 := List.reverse_injective h2
  have h4 := congrArg (Nat.ofDigits 10) h3
  rwa [Nat.ofDigits_digits, Nat.ofDigits_digits] at h4

theorem mkEventId_inj (sid : String) (a b : Nat) (ha : a ≠ 0) (hb : b ≠ 0)
    (h : mkEventId sid a = mkEventId sid b) : a = b := by
  have hdata : sid.data ++ ("-ev".data ++ (padStart6 (decRepr a)).data)
      = sid.data ++ ("-ev".data ++ (padStart6 (decRepr b)).data) := by
    have hdata0 := congrArg String.data h
    simpa [mkEventId, String.data_append] using hdata0
  have h1 := List.append_cancel_left hdata
  have h2 := List.append_cancel_left h1
  have h3 : padStart6 (decRepr a) = padStart6 (decRepr b) := String.ext h2
  exact decRepr_inj a b ha hb
    (padStart6_inj _ _ (decRepr_head_ne_zero a ha)
      (decRepr_head_ne_zero b hb) h3)

theorem runNextEventIds_spec (sid : String) :
    ∀ (n : Nat) (st : StorageState), st.sessionId = sid →
      (runNextEventIds st n).2
        = (List.range n).map (fun i => mkEventId sid (st.eventCount + i + 1)) ∧
      (runNextEventIds st n).1
        = { st with eventCount := st.eventCount + n } := by
  intro n
  induction n with
  | zero =>
    intro st hsid
    constructor
    · simp [runNextEventIds]
    · simp [runNextEventIds]
  | succ n ih =>
    intro st hsid
    obtain ⟨hids, hst⟩ :=
      ih { st with eventCount := st.eventCount + 1 } (by simpa using hsid)
    constructor
    · simp only [runNextEventIds, nextEventId]
      rw [hids, hsid, List.range_succ_eq_map]
      simp only [List.map_cons, List.map_map]
      have htail : ((fun i => mkEventId sid (st.eventCount + i + 1)) ∘ Nat.succ)
          = fun i => mkEventId sid (st.eventCount + 1 + i + 1) := by
        funext i
        simp only [Function.comp_apply]
        exact congrArg (mkEventId sid) (by omega)
      rw [htail, show st.eventCount + 0 + 1 = st.eventCount + 1 from by omega]
    · simp only [runNextEventIds, nextEventId]
      rw [hst,
        show st.eventCount + 1 + n = st.eventCount + (n + 1) from by omega]

/-! ## Claim theorems -/

/-- **C9.** For every raw DOM change whose `targetPath` is the empty string,
`computeChangeLevel` returns 1, regardless of mutation type, attribute name,
or node lists: `isInHead` treats the empty path as in-head, and that check
runs first. -/
theorem c9_empty_path_is_noise (raw : RawDomChange)
    (h : raw.targetPath = "") : computeChangeLevel raw = 1 := by
  have hhead : isInHead raw.targetPath = true := by
    simp [isInHead, h]
  simp [computeChangeLevel, hhead]

/-- Witness for C9: a `class`-attribute change (a "visible" attribute) on a
target with empty path is classified 1, not 3. -/
theorem c9_empty_path_is_noise_witness :
    computeChangeLevel
      ⟨"attributes", "", [], [], some "class", some "x", none, none⟩ = 1 :=
  c9_empty_path_is_noise
    ⟨"attributes", "", [], [], some "class", some "x", none, none⟩ rfl

/-- **C4, counterexample.** A `childList` change with empty added/removed
node lists vacuously has all its nodes drawn from
{SCRIPT, LINK, META, STYLE, NOSCRIPT, #comment} (the `all` test on the empty
concatenation is `true`), yet `computeChangeLevel` returns 2, not 1: the
noise rule additionally requires `allNodes.length > 0`, and the empty change
falls through to the default level. -/
theorem c4_counterexample :
    (List.all ([] ++ [] : List String)
        (fun n => RESOURCE_NODES.contains n || n == "#comment")) = true ∧
    computeChangeLevel
      ⟨"childList", "/html[1]/body[1]", [], [], none, none, none, none⟩
      = 2 := by decide

/-- **C4, amended.** (a) Any `childList` change with *at least one* added or
removed node, all drawn from {SCRIPT, LINK, META, STYLE, NOSCRIPT, #comment},
is classified 1.  (b) Any attribute change whose name is `class`, `style`,
or any name starting with `aria-` is classified 3, unless the level-1
head-locality rule (`isInHead`) matched first, in which case it is 1. -/
theorem c4_classifier_rules :
    (∀ raw : RawDomChange, raw.mutationType = "childList" →
      raw.addedNodes ++ raw.removedNodes ≠ [] →
      (raw.addedNodes ++ raw.removedNodes).all
        (fun n => RESOURCE_NODES.contains n || n == "#comment") = true →
      computeChangeLevel raw = 1) ∧
    (∀ (raw : RawDomChange) (a : String), raw.mutationType = "attributes" →
      raw.attributeName = some a →
      (a = "class" ∨ a = "style" ∨ a.startsWith "aria-" = true) →
      computeChangeLevel raw = if isInHead raw.targetPath then 1 else 3) := by
  constructor
  · intro raw h1 h2 h3
    by_cases hh : isInHead raw.targetPath = true
    · simp [computeChangeLevel, hh]
    · have hh' : ¬ (isInHead raw.targetPath = true) := hh
      have hlen : 0 < (raw.addedNodes ++ raw.removedNodes).length :=
        List.length_pos.mpr h2
      have hnoise : isNoiseNodes (raw.addedNodes ++ raw.removedNodes)
          = true := by
        simp only [isNoiseNodes, Bool.and_eq_true, decide_eq_true_eq]
        exact ⟨hlen, h3⟩
      have hc : (raw.mutationType == "childList" &&
          decide ((raw.addedNodes ++ raw.removedNodes).length > 0) &&
          isNoiseNodes (raw.addedNodes ++ raw.removedNodes)) = true := by
        simp only [Bool.and_eq_true, beq_iff_eq, decide_eq_true_eq]
        exact ⟨⟨h1, hlen⟩, hnoise⟩
      unfold computeChangeLevel
      dsimp only
      rw [if_neg hh', if_pos hc]
  · intro raw a h1 h2 h3
    by_cases hh : isInHead raw.targetPath = true
    · simp [computeChangeLevel, hh]
    · have hh' : ¬ (isInHead raw.targetPath = true) := hh
      have hvis : (VISIBLE_ATTRS.contains a || a.startsWith "aria-")
          = true := by
        rcases h3 with rfl | rfl | h3
        · decide
        · decide
        · simp [h3]
      have hc2 : (raw.mutationType == "childList") = false := by
        simp [h1]
      have hc3 : (raw.mutationType == "attributes" &&
          (match raw.attributeName with
           | some b => VISIBLE_ATTRS.contains b || b.startsWith "aria-"
           | none => false)) = true := by
        rw [h1, h2]
        simpa using hvis
      unfold computeChangeLevel
      dsimp only
      rw [if_neg hh', if_neg (by simp [hc2]), if_pos hc3, if_neg hh']

/-- Witness for C4 (amended): a body-level `childList` change adding one
SCRIPT node is level 1; a body-level `class` attribute change is level 3. -/
theorem c4_classifier_rules_witness :
    computeChangeLevel
      ⟨"childList", "/html[1]/body[1]", ["SCRIPT"], [], none, none, none,
        none⟩ = 1 ∧
    computeChangeLevel
      ⟨"attributes", "/html[1]/body[1]/div[1]", [], [], some "class",
        some "x", none, none⟩
      = if isInHead "/html[1]/body[1]/div[1]" then 1 else 3 :=
  ⟨c4_classifier_rules.1
      ⟨"childList", "/html[1]/body[1]", ["SCRIPT"], [], none, none, none,
        none⟩ rfl (by decide) (by decide),
   c4_classifier_rules.2
      ⟨"attributes", "/html[1]/body[1]/div[1]", [], [], some "class",
        some "x", none, none⟩ "class" rfl rfl (Or.inl rfl)⟩

/-- **C7.** A mutation batch with zero changes is discarded (nothing is
appended to the sink), and a stored batch's `maxLevel` is the maximum of the
computed levels over its changes — it is attained by some change, bounds
every change's level, and lies in [1, 3]. -/
theorem c7_batch_max_level :
    (∀ dir : Option String, saveMutation dir [] = none) ∧
    (∀ (dir : Option String) (rawChanges : List RawDomChange)
        (out : String × OpMutationRecord),
      saveMutation dir rawChanges = some out →
      out.2.maxLevel ∈ out.2.changes.map (fun c => c.level) ∧
      (∀ l ∈ out.2.changes.map (fun c => c.level), l ≤ out.2.maxLevel) ∧
      1 ≤ out.2.maxLevel ∧ out.2.maxLevel ≤ 3) := by
  constructor
  · intro dir
    cases dir <;> simp [saveMutation]
  · intro dir rawChanges out h
    cases dir with
    | none => simp [saveMutation] at h
    | some d =>
      by_cases hlen : rawChanges.length = 0
      · simp [saveMutation, hlen] at h
      · simp only [saveMutation, hlen, if_false, Option.some_inj] at h
        have hcomp : ((fun c : DomChange => c.level) ∘ toDomChange)
            = computeChangeLevel := by
          funext x
          simp [toDomChange]
        have hlev :
            out.2.changes.map (fun c => c.level)
              = rawChanges.map computeChangeLevel := by
          rw [← h]
          simp [List.map_map, hcomp]
        have hmax :
            out.2.maxLevel
              = (rawChanges.map computeChangeLevel).foldl max 1 := by
          rw [← h]
          simp [List.map_map, hcomp]
        have hne : rawChanges.map computeChangeLevel ≠ [] := by
          simpa using List.length_pos.mp (Nat.pos_of_ne_zero hlen)
        have hge : ∀ x ∈ rawChanges.map computeChangeLevel, 1 ≤ x := by
          intro x hx
          obtain ⟨raw, _, rfl⟩ := List.mem_map.mp hx
          exact computeChangeLevel_pos raw
        have hle3 : ∀ x ∈ rawChanges.map computeChangeLevel, x ≤ 3 := by
          intro x hx
          obtain ⟨raw, _, rfl⟩ := List.mem_map.mp hx
          exact computeChangeLevel_le_three raw
        refine ⟨?_, ?_, ?_, ?_⟩
        · rw [hlev, hmax]
          exact foldl_max_mem _ 1 hne hge
        · rw [hlev, hmax]
          exact foldl_max_le_of_mem _ 1
        · rw [hmax]
          exact foldl_max_init_le _ 1
        · rw [hmax]
          exact foldl_max_le _ 1 3 (by omega) hle3

/-- Witness for C7: the empty batch is discarded, and a concrete stored
batch (one `characterData` change, level 2) has `maxLevel` at least 1. -/
theorem c7_batch_max_level_witness :
    saveMutation (some "d") [] = none ∧
    1 ≤ (("d",
      OpMutationRecord.mk 2
        [⟨"characterData", "/html[1]/body[1]/p[1]", [], [], none, none, none,
          some "hi", 2⟩]) : String × OpMutationRecord).2.maxLevel :=
  ⟨c7_batch_max_level.1 (some "d"),
   (c7_batch_max_level.2 (some "d")
      [⟨"characterData", "/html[1]/body[1]/p[1]", [], [], none, none, none,
        some "hi"⟩]
      ("d",
       OpMutationRecord.mk 2
        [⟨"characterData", "/html[1]/body[1]/p[1]", [], [], none, none, none,
          some "hi", 2⟩])
      (by decide)).2.2.1⟩

theorem mapSet_length_le (buf : PendingMap) (k : String) (v : PendingRequest) :
    (mapSet buf k v).length ≤ buf.length + 1 := by
  unfold mapSet
  split
  · simp
  · simp

theorem stepNet_length_le (N : Nat) (hN : 1 ≤ N) (buf : PendingMap)
    (f : NetFrame) (h : buf.length ≤ N) : (stepNet N buf f).length ≤ N := by
  cases f with
  | requestSent rid url fid =>
    have h1 := mapSet_length_le (evictIfFull buf N) rid ⟨url, fid.getD ""⟩
    have h2 : (evictIfFull buf N).length + 1 ≤ N := by
      unfold evictIfFull
      split
      · simp only [List.length_tail]
        omega
      · omega
    exact Nat.le_trans h1 h2
  | responseReceived rid => exact h
  | loadingFinished rid len =>
    have h1 : (stepNet N buf (NetFrame.loadingFinished rid len)).length
        ≤ buf.length := by
      simp only [stepNet, onLoadingFinished, mapDelete]
      exact List.length_filter_le _ buf
    exact Nat.le_trans h1 h

theorem runNet_length_le (N : Nat) (hN : 1 ≤ N) (frames : List NetFrame) :
    (runNet N frames).length ≤ N := by
  suffices hgen : ∀ buf : PendingMap, buf.length ≤ N →
      (frames.foldl (stepNet N) buf).length ≤ N by
    exact hgen [] (by simp)
  induction frames with
  | nil =>
    intro buf h
    exact h
  | cons f fs ih =>
    intro buf h
    exact ih _ (stepNet_length_le N hN buf f h)

theorem assignFold_eq (opDir : String) :
    ∀ (l : List UAStep) (initDir : Option String),
      l.foldl (fun d s => if s == UAStep.assignDirs then some opDir else d)
          initDir
        = if UAStep.assignDirs ∈ l then some opDir else initDir := by
  intro l
  induction l with
  | nil =>
    intro initDir
    simp
  | cons s l ih =>
    intro initDir
    rw [List.foldl_cons, ih]
    by_cases hs : s = UAStep.assignDirs
    · subst hs
      simp
    · have hs2 : ¬ (UAStep.assignDirs = s) := fun hh => hs hh.symm
      simp [hs, hs2]

theorem assignDirs_mem_take_of_awaitSleep :
    ∀ l1 : List UAStep, UAStep.awaitSleep ∉ l1 →
      ∀ (l2 : List UAStep) (k : Nat),
        (l1 ++ UAStep.assignDirs :: l2).get? k = some UAStep.awaitSleep →
        UAStep.assignDirs ∈ (l1 ++ UAStep.assignDirs :: l2).take k := by
  intro l1
  induction l1 with
  | nil =>
    intro _ l2 k h
    cases k with
    | zero => simp at h
    | succ k => simp [List.take_succ_cons]
  | cons x l1 ih =>
    intro hnot l2 k h
    cases k with
    | zero =>
      simp only [List.cons_append, List.get?_cons_zero, Option.some_inj] at h
      exact absurd (h ▸ List.mem_cons_self x l1) hnot
    | succ k =>
      have hm := ih (fun hmem => hnot (List.mem_cons_of_mem x hmem)) l2 k
        (by simpa using h)
      simp only [List.cons_append, List.take_succ_cons]
      exact List.mem_cons_of_mem x hm

theorem mem_drop_concat {α : Type} (x : α) :
    ∀ (l : List α) (k : Nat), k < (l ++ [x]).length → x ∈ (l ++ [x]).drop k := by
  intro l
  induction l with
  | nil =>
    intro k hk
    have hk0 : k = 0 := by
      simp only [List.nil_append, List.length_singleton] at hk
      omega
    subst hk0
    simp
  | cons y l ih =>
    intro k hk
    cases k with
    | zero =>
      simp only [List.drop_zero]
      exact List.mem_append_right _ (List.mem_singleton.mpr rfl)
    | succ k =>
      rw [List.cons_append, List.drop_succ_cons]
      refine ih k ?_
      simp only [List.cons_append, List.length_cons] at hk
      simpa using Nat.lt_of_succ_lt_succ hk

theorem runRemainingUA_writes (opDir : String) :
    ∀ (steps : List UAStep) (st : TabState),
      UAStep.awaitWriteEvent ∈ steps →
      Record.userAction opDir ∈ (runRemainingUA st opDir steps).2 := by
  intro steps
  induction steps with
  | nil =>
    intro st h
    cases h
  | cons s rest ih =>
    intro st h
    rcases List.mem_cons.mp h with hs | hs
    · simp [runRemainingUA, ← hs, resumeUA]
    · simp only [runRemainingUA, List.mem_append]
      exact Or.inr (ih _ hs)

theorem saveUserActionSteps_concat (sse sne : Bool) (a : UserAction) :
    saveUserActionSteps sse sne a
      = (UAStep.awaitCreateOpDir ::
          ((if isClickLike a && sse then [UAStep.awaitScreenshotBefore]
            else [])
            ++ UAStep.assignDirs ::
              ((if isClickLike a then [UAStep.awaitSleep] else [])
                ++ ((if sse then [UAStep.awaitScreenshotAfter] else [])
                  ++ (if sne then [UAStep.awaitSnapshot] else [])))))
        ++ [UAStep.awaitWriteEvent] := by
  simp [saveUserActionSteps]

/-- **C2.** For every number of `nextEventId` calls on the one storage
instance shared by all tabs (allocation is synchronous, so calls from any
number of tabs form one sequence), the issued identifiers are exactly
`mkEventId sid 1, mkEventId sid 2, …` in call order — the `n`-th call
returns the identifier carrying counter `n`, so the embedded counters are
strictly increasing from 1 with no gaps — the identifiers are pairwise
distinct, and the final counter equals the number of calls. -/
theorem c2_event_ids_unique_and_gapless (sid : String) (n : Nat) :
    (runNextEventIds (StorageState.new sid) n).2
      = (List.range n).map (fun i => mkEventId sid (i + 1)) ∧
    (∀ i : Nat, i < n →
      (runNextEventIds (StorageState.new sid) n).2.get? i
        = some (mkEventId sid (i + 1))) ∧
    List.Pairwise (fun x y => x ≠ y)
      (runNextEventIds (StorageState.new sid) n).2 ∧
    (runNextEventIds (StorageState.new sid) n).1.eventCount = n := by
  obtain ⟨hids, hst⟩ := runNextEventIds_spec sid n (StorageState.new sid) rfl
  have hids2 : (runNextEventIds (StorageState.new sid) n).2
      = (List.range n).map (fun i => mkEventId sid (i + 1)) := by
    rw [hids]
    apply List.map_congr_left
    intro i _
    exact congrArg (mkEventId sid) (by simp [StorageState.new])
  refine ⟨hids2, ?_, ?_, ?_⟩
  · intro i hi
    rw [hids2, List.get?_map, List.get?_range hi]
    rfl
  · rw [hids2, List.pairwise_map]
    refine (List.pairwise_lt_range n).imp ?_
    intro a b hab heq
    have := mkEventId_inj sid (a + 1) (b + 1) (by omega) (by omega) heq
    omega
  · rw [hst]
    simp [StorageState.new]

/-- Witness for C2: after two calls, the second issued identifier is the one
carrying counter 2. -/
theorem c2_event_ids_unique_and_gapless_witness :
    (runNextEventIds (StorageState.new "s") 2).2.get? 1
      = some (mkEventId "s" 2) :=
  (c2_event_ids_unique_and_gapless "s" 2).2.1 1 (by decide)

/-- **C5, counterexample.** An iframe navigation creates a new operation but
leaves both `currentOpDir` and `currentMutationDir` unchanged: after handling
the trigger, neither field points to the new navigation operation, refuting
"for any navigating frame". -/
theorem c5_counterexample :
    (recordNavigation
        ⟨some "ops/ev000001-main-navigation",
         some "ops/ev000001-main-navigation"⟩
        "ops/ev000002-iframe-navigation" FrameType.iframe).createdOpDir
      = "ops/ev000002-iframe-navigation" ∧
    (recordNavigation
        ⟨some "ops/ev000001-main-navigation",
         some "ops/ev000001-main-navigation"⟩
        "ops/ev000002-iframe-navigation" FrameType.iframe).state.currentOpDir
      ≠ some "ops/ev000002-iframe-navigation" ∧
    (recordNavigation
        ⟨some "ops/ev000001-main-navigation",
         some "ops/ev000001-main-navigation"⟩
        "ops/ev000002-iframe-navigation"
        FrameType.iframe).state.currentMutationDir
      ≠ some "ops/ev000002-iframe-navigation" := by decide

/-- **C5, amended.** For every *main-frame* navigation trigger, a new
operation is created and both `currentOpDir` and `currentMutationDir` are set
to it immediately (no settle delay); an iframe navigation still creates and
records a new operation but leaves both attribution fields unchanged. -/
theorem c5_navigation_updates_both_dirs (st : RouterState) (opDir : String) :
    ((recordNavigation st opDir FrameType.main).state.currentOpDir
        = some opDir ∧
     (recordNavigation st opDir FrameType.main).state.currentMutationDir
        = some opDir ∧
     (recordNavigation st opDir FrameType.main).createdOpDir = opDir) ∧
    ((recordNavigation st opDir FrameType.iframe).state = st ∧
     (recordNavigation st opDir FrameType.iframe).createdOpDir = opDir) := by
  simp [recordNavigation]

/-- **C1, counterexample.** In `saveUserAction` the double assignment to
`currentMutationDir` / `currentOpDir` happens only *after* the directory
creation `await` (and the optional before-screenshot `await`): the very first
step of the handler is the suspension inside `storage.createOpDir`, and a
mutation batch delivered while the handler is suspended there is attributed
to the previously current operation, not to the newly created one — refuting
"before any suspension occurs, including the await of the sink's directory
creation". -/
theorem c1_counterexample :
    (saveUserActionSteps false false UserAction.click).get? 0
        = some UAStep.awaitCreateOpDir ∧
    mutDirDuring (some "ops/ev000001-main-navigation")
        "ops/ev000002-main-click"
        (saveUserActionSteps false false UserAction.click) 0
      = some "ops/ev000001-main-navigation" := by decide

/-- **C1, amended.** The assignment to `currentMutationDir` (and
`currentOpDir`) happens before the settle sleep but after the
directory-creation `await` (and the optional before-screenshot `await`):
for every configuration and action, a mutation batch delivered while the
handler is suspended in the 500 ms settle window is attributed to the new
operation, while one delivered during the directory creation still sees the
pre-trigger value. -/
theorem c1_settle_window_attribution (sse sne : Bool) (a : UserAction)
    (initDir : Option String) (opDir : String) :
    ((saveUserActionSteps sse sne a).get? 0 = some UAStep.awaitCreateOpDir ∧
     mutDirDuring initDir opDir (saveUserActionSteps sse sne a) 0 = initDir) ∧
    (∀ k : Nat,
      (saveUserActionSteps sse sne a).get? k = some UAStep.awaitSleep →
      mutDirDuring initDir opDir (saveUserActionSteps sse sne a) k
        = some opDir) := by
  constructor
  · exact ⟨rfl, rfl⟩
  · intro k h
    have hdecomp : saveUserActionSteps sse sne a
        = (UAStep.awaitCreateOpDir ::
            (if isClickLike a && sse then [UAStep.awaitScreenshotBefore]
             else []))
          ++ UAStep.assignDirs ::
            ((if isClickLike a then [UAStep.awaitSleep] else [])
              ++ ((if sse then [UAStep.awaitScreenshotAfter] else [])
                ++ ((if sne then [UAStep.awaitSnapshot] else [])
                  ++ [UAStep.awaitWriteEvent]))) := by
      simp [saveUserActionSteps]
    have hnot : UAStep.awaitSleep ∉
        (UAStep.awaitCreateOpDir ::
          (if isClickLike a && sse then [UAStep.awaitScreenshotBefore]
           else [])) := by
      cases isClickLike a && sse <;> simp
    have hmem := assignDirs_mem_take_of_awaitSleep _ hnot _ k
      (by rw [← hdecomp]; exact h)
    rw [← hdecomp] at hmem
    unfold mutDirDuring
    rw [assignFold_eq, if_pos hmem]

/-- Witness for C1 (amended): for a click with screenshots and snapshots
disabled, the settle sleep is step index 2 and a batch delivered there is
attributed to the new operation directory. -/
theorem c1_settle_window_attribution_witness :
    mutDirDuring (some "ops/ev000001-main-navigation")
        "ops/ev000002-main-click"
        (saveUserActionSteps false false UserAction.click) 2
      = some "ops/ev000002-main-click" :=
  (c1_settle_window_attribution false false UserAction.click
      (some "ops/ev000001-main-navigation") "ops/ev000002-main-click").2 2
    (by decide)

/-- **C6.** A `loadingFinished` frame whose `requestId` has no pending entry
raises no error (the handler is a total function) and still yields a finished
record with empty URL and frame fields, leaving the pending map unchanged;
when a pending entry exists it is removed and its `url`/`frameId` populate
the record.  In both cases the record is written to the tab's current
operation directory whenever one is set. -/
theorem c6_finished_frame_degrades_gracefully :
    (∀ (buf : PendingMap) (rid : String) (len : Nat),
      mapGet buf rid = none →
        (onLoadingFinished buf rid len).2.url = "" ∧
        (onLoadingFinished buf rid len).2.frameUrl = "" ∧
        (onLoadingFinished buf rid len).1 = buf) ∧
    (∀ (buf : PendingMap) (rid : String) (len : Nat) (p : PendingRequest),
      mapGet buf rid = some p →
        (onLoadingFinished buf rid len).2.url = p.url ∧
        (onLoadingFinished buf rid len).2.frameUrl = p.frameId ∧
        mapGet (onLoadingFinished buf rid len).1 rid = none) ∧
    (∀ (N : Nat) (st : TabState) (d : String) (f : NetFrame),
      st.cdpAttached = true → st.currentOpDir = some d →
        (handleTabEvent N st (TabEvent.networkFrame f)).2
          = [Record.network d]) := by
  refine ⟨?_, ?_, ?_⟩
  · intro buf rid len h
    have hf : buf.find? (fun p => p.1 == rid) = none := by
      simpa [mapGet] using h
    refine ⟨by simp [onLoadingFinished, mapGet, hf],
      by simp [onLoadingFinished, mapGet, hf], ?_⟩
    simp only [onLoadingFinished, mapDelete]
    rw [List.filter_eq_self.mpr]
    intro a ha
    have hne := List.find?_eq_none.mp hf a ha
    simp only [Bool.not_eq_true] at hne
    simp [bne, hne]
  · intro buf rid len p h
    obtain ⟨q, hq, hqp⟩ := Option.map_eq_some'.mp h
    refine ⟨by simp [onLoadingFinished, mapGet, hq, hqp],
      by simp [onLoadingFinished, mapGet, hq, hqp], ?_⟩
    simp only [onLoadingFinished, mapGet, mapDelete]
    rw [List.find?_eq_none.mpr]
    · simp
    · intro a ha
      have := (List.mem_filter.mp ha).2
      simp only [bne_iff_ne, ne_eq] at this
      simp [this]
  · intro N st d f h1 h2
    simp [handleTabEvent, h1, h2]

/-- Witness for C6: a miss on `"r2"` degrades the record, a hit on `"r1"`
recovers and removes the entry, and a finished frame is written to the
current operation. -/
theorem c6_finished_frame_degrades_gracefully_witness :
    ((onLoadingFinished [("r1", ⟨"http://a", "f1"⟩)] "r2" 7).2.url = "" ∧
     (onLoadingFinished [("r1", ⟨"http://a", "f1"⟩)] "r2" 7).2.frameUrl = "" ∧
     (onLoadingFinished [("r1", ⟨"http://a", "f1"⟩)] "r2" 7).1
       = [("r1", ⟨"http://a", "f1"⟩)]) ∧
    ((onLoadingFinished [("r1", ⟨"http://a", "f1"⟩)] "r1" 7).2.url
       = "http://a" ∧
     (onLoadingFinished [("r1", ⟨"http://a", "f1"⟩)] "r1" 7).2.frameUrl
       = "f1" ∧
     mapGet (onLoadingFinished [("r1", ⟨"http://a", "f1"⟩)] "r1" 7).1 "r1"
       = none) ∧
    (handleTabEvent 1000
        ⟨false, true, some "op1", some "op1", [], 1⟩
        (TabEvent.networkFrame (NetFrame.loadingFinished "r2" 7))).2
      = [Record.network "op1"] :=
  ⟨c6_finished_frame_degrades_gracefully.1 [("r1", ⟨"http://a", "f1"⟩)] "r2" 7
      (by decide),
   c6_finished_frame_degrades_gracefully.2.1 [("r1", ⟨"http://a", "f1"⟩)]
      "r1" 7 ⟨"http://a", "f1"⟩ (by decide),
   c6_finished_frame_degrades_gracefully.2.2 1000
      ⟨false, true, some "op1", some "op1", [], 1⟩ "op1"
      (NetFrame.loadingFinished "r2" 7) rfl rfl⟩

/-- **C3.** The configured buffer size is always at least 1 (`getConfig`
falls back to 1000 for `NaN` or non-positive values); with it, the pending
map never holds more than `N` entries for any frame sequence, and an insert
arriving with `N` entries present first evicts exactly the single
oldest-inserted entry (the head of the insertion-order list — lookups never
reorder it) before inserting. -/
theorem c3_ring_buffer_bounded (envValue : Option Int) :
    1 ≤ configNetworkBufferSize envValue ∧
    (∀ frames : List NetFrame,
      (runNet (configNetworkBufferSize envValue) frames).length
        ≤ configNetworkBufferSize envValue) ∧
    (∀ (buf : PendingMap) (rid url : String) (fid : Option String),
      buf.length = configNetworkBufferSize envValue →
        evictIfFull buf (configNetworkBufferSize envValue) = buf.tail ∧
        stepNet (configNetworkBufferSize envValue) buf
            (NetFrame.requestSent rid url fid)
          = mapSet buf.tail rid ⟨url, fid.getD ""⟩) := by
  have hN : 1 ≤ configNetworkBufferSize envValue := by
    cases envValue with
    | none => simp [configNetworkBufferSize]
    | some raw =>
      simp only [configNetworkBufferSize]
      split
      · omega
      · omega
  refine ⟨hN, ?_, ?_⟩
  · intro frames
    exact runNet_length_le _ hN frames
  · intro buf rid url fid h
    have hev : evictIfFull buf (configNetworkBufferSize envValue)
        = buf.tail := by
      unfold evictIfFull
      rw [if_pos (Nat.le_of_eq h.symm)]
    exact ⟨hev, by simp [stepNet, hev]⟩

/-- Witness for C3: with `NETWORK_BUFFER_SIZE=1` and one pending entry, a
second request evicts the first entry before inserting. -/
theorem c3_ring_buffer_bounded_witness :
    evictIfFull [("r1", ⟨"http://a", "f1"⟩)] (configNetworkBufferSize (some 1))
      = ([("r1", ⟨"http://a", "f1"⟩)] : PendingMap).tail ∧
    stepNet (configNetworkBufferSize (some 1)) [("r1", ⟨"http://a", "f1"⟩)]
        (NetFrame.requestSent "r2" "http://b" none)
      = mapSet ([("r1", ⟨"http://a", "f1"⟩)] : PendingMap).tail "r2"
          ⟨"http://b", (none : Option String).getD ""⟩ :=
  (c3_ring_buffer_bounded (some 1)).2.2 [("r1", ⟨"http://a", "f1"⟩)]
    "r2" "http://b" none (by decide)

/-- **C10.** Before `initialize()` has completed, every write operation of
the session storage throws the not-initialized error; after `initialize()`
has completed the flag is `true`, it is never reset, and none of the six
write operations ever returns that error again. -/
theorem c10_writes_require_initialization (st : StorageState)
    (eventId frameType type opDir phase : String)
    (record : OpMutationRecord) :
    (st.initialized = false →
      createOpDir st eventId frameType type = Except.error notInitializedMsg ∧
      writeOpEvent st opDir = Except.error notInitializedMsg ∧
      writeOpSnapshot st opDir = Except.error notInitializedMsg ∧
      appendOpMutation st opDir record = Except.error notInitializedMsg ∧
      appendOpNetwork st opDir = Except.error notInitializedMsg ∧
      writeOpScreenshot st opDir phase = Except.error notInitializedMsg) ∧
    (StorageState.initializeStorage st).initialized = true ∧
    (st.initialized = true →
      createOpDir st eventId frameType type ≠ Except.error notInitializedMsg ∧
      writeOpEvent st opDir ≠ Except.error notInitializedMsg ∧
      writeOpSnapshot st opDir ≠ Except.error notInitializedMsg ∧
      appendOpMutation st opDir record ≠ Except.error notInitializedMsg ∧
      appendOpNetwork st opDir ≠ Except.error notInitializedMsg ∧
      writeOpScreenshot st opDir phase ≠ Except.error notInitializedMsg) := by
  refine ⟨?_, rfl, ?_⟩
  · intro h
    refine ⟨?_, ?_, ?_, ?_, ?_, ?_⟩ <;>
      simp [createOpDir, writeOpEvent, writeOpSnapshot, appendOpMutation,
        appendOpNetwork, writeOpScreenshot, assertInitialized, h,
        Except.bind]
  · intro h
    refine ⟨?_, ?_, ?_, ?_, ?_, ?_⟩ <;>
      simp [createOpDir, writeOpEvent, writeOpSnapshot, appendOpMutation,
        appendOpNetwork, writeOpScreenshot, assertInitialized, h,
        Except.bind]

/-- Witness for C10: on a fresh storage `createOpDir` throws the
not-initialized error; after `initialize()` it does not. -/
theorem c10_writes_require_initialization_witness :
    createOpDir (StorageState.new "s") "s-ev000001" "main" "click"
      = Except.error notInitializedMsg ∧
    createOpDir (StorageState.initializeStorage (StorageState.new "s"))
        "s-ev000001" "main" "click"
      ≠ Except.error notInitializedMsg :=
  ⟨((c10_writes_require_initialization (StorageState.new "s") "s-ev000001"
      "main" "click" "d" "before" (OpMutationRecord.mk 1 [])).1 rfl).1,
   ((c10_writes_require_initialization
      (StorageState.initializeStorage (StorageState.new "s")) "s-ev000001"
      "main" "click" "d" "before"
      (OpMutationRecord.mk 1 [])).2.2 rfl).1⟩

/-- **C8, counterexample.** `stop()` sets `stopped = true` and then *awaits*
the CDP detach; the network listeners check neither flag
(`appendToCurrentOp` only checks `currentOpDir`), so a network frame
delivered after `stop()` has been called but before the detach completes is
still written to the current operation — refuting "no further records of any
kind are accepted or written after stop() has been called". -/
theorem c8_counterexample :
    (stopBegin ⟨false, true, some "ops/ev000001-main-navigation",
        some "ops/ev000001-main-navigation", [], 1⟩).stopped = true ∧
    (handleTabEvent 1000
        (stopBegin ⟨false, true, some "ops/ev000001-main-navigation",
          some "ops/ev000001-main-navigation", [], 1⟩)
        (TabEvent.networkFrame (NetFrame.loadingFinished "r1" 0))).2
      = [Record.network "ops/ev000001-main-navigation"] := by decide

/-- **C8, amended.** Events *delivered* after `stop()` is called are dead:
user-action, mutation and navigation records are rejected from the instant
`stop()` is called (the `stopped` flag is set synchronously and checked at
handler entry), and once `stop()` has completed (the CDP detach resolved) an
event of any kind, network frames included, produces no record, creates no
operation and leaves the tab state unchanged.  Two windows remain open: a
network frame delivered between the call to `stop()` and the completion of
the detach is still written (the counterexample above), and a
`saveUserAction` handler already in flight when `stop()` is called runs to
completion — whichever suspension it was parked at, nothing after its entry
re-checks `stopped`, so it still writes its user-action event record even
after `stop()` has completed. -/
theorem c8_stop_rejects_records (N : Nat) (st : TabState) :
    (∀ ev : TabEvent, handleTabEvent N (stop st) ev = (stop st, [])) ∧
    (∀ (a : UserAction) (opDir : String),
      handleTabEvent N (stopBegin st) (TabEvent.injectedUserAction a opDir)
        = (stopBegin st, [])) ∧
    (∀ rawChanges : List RawDomChange,
      handleTabEvent N (stopBegin st) (TabEvent.injectedMutation rawChanges)
        = (stopBegin st, [])) ∧
    (∀ (ft : FrameType) (opDir : String),
      handleTabEvent N (stopBegin st) (TabEvent.navigation ft opDir)
        = (stopBegin st, [])) ∧
    (∀ (opDir : String) (sse sne : Bool) (a : UserAction) (k : Nat),
      k < (saveUserActionSteps sse sne a).length →
      Record.userAction opDir ∈
        (runRemainingUA (stop st) opDir
          ((saveUserActionSteps sse sne a).drop k)).2) := by
  refine ⟨?_, ?_, ?_, ?_, ?_⟩
  · intro ev
    cases ev <;> simp [handleTabEvent, stop, stopBegin, stopFinish]
  · intro a opDir
    simp [handleTabEvent, stopBegin]
  · intro rawChanges
    simp [handleTabEvent, stopBegin]
  · intro ft opDir
    simp [handleTabEvent, stopBegin]
  · intro opDir sse sne a k hk
    rw [saveUserActionSteps_concat] at hk ⊢
    exact runRemainingUA_writes opDir _ _
      (mem_drop_concat UAStep.awaitWriteEvent _ k hk)

/-- Witness for C8 (amended): a click handler (screenshots and snapshots
disabled) parked at its settle sleep (step index 2) when `stop()` ran still
writes its user-action record after `stop()` has completed. -/
theorem c8_stop_rejects_records_witness :
    Record.userAction "ops/ev000002-main-click" ∈
      (runRemainingUA
        (stop ⟨false, true, some "ops/ev000001-main-navigation",
          some "ops/ev000001-main-navigation", [], 1⟩)
        "ops/ev000002-main-click"
        ((saveUserActionSteps false false UserAction.click).drop 2)).2 :=
  (c8_stop_rejects_records 1000
      ⟨false, true, some "ops/ev000001-main-navigation",
        some "ops/ev000001-main-navigation", [], 1⟩).2.2.2.2
    "ops/ev000002-main-click" false false UserAction.click 2 (by decide)

end WST
